import Mathlib

/-!
Verification of the Assistent core service against its specification.

The definitions below are shallow embeddings of the Python sources:
  * `src/core/src/app/middleware.py`        (RateLimitMiddleware)
  * `src/core/src/observability/ring_buffer.py` (RingBuffer, LogEntry)
  * `src/core/src/observability/pii_masker.py`  (PIIMasker)
Python floats are modelled as rationals (ℚ), Python ints as ℤ/ℕ where the
sign is fixed by context, and fallible paths return explicit results.
-/

/-! ## Rate limiter — `src/core/src/app/middleware.py`, `RateLimitMiddleware` -/

/-- Python `min(a, b)` on floats: returns `a` when `a ≤ b`. -/
def pyMin (a b : ℚ) : ℚ := if a ≤ b then a else b

/-- Python `int(x)` on a float: truncation toward zero (`Int.tdiv` is
truncated division, and `num/den` is reduced). -/
def pyInt (q : ℚ) : ℤ := Int.tdiv q.num (q.den : ℤ)

/-- One per-client token bucket: `self.buckets[ip] = (tokens, last_refill)`.
`tokens` is a Python float (starts as the int `requests_per_minute`),
`lastRefill` a `time.time()` value. -/
structure Bucket where
  tokens : ℚ
  lastRefill : ℚ
  deriving Repr, DecidableEq

/-- `defaultdict(lambda: (requests_per_minute, time.time()))`: a fresh
bucket holds `requests_per_minute` tokens, stamped with the current time. -/
def initialBucket (requests_per_minute : ℤ) (now : ℚ) : Bucket :=
  ⟨(requests_per_minute : ℚ), now⟩

/-- The response produced by `RateLimitMiddleware.dispatch`, restricted to
what the middleware itself decides: the status code it forces (429 on
denial, otherwise the inner app's response passes through), the JSON body
it attaches on denial, and the three `X-RateLimit-*` headers it sets on
admitted responses (the denial `JSONResponse` is returned early and never
reaches the header-setting code). Header values are the integers whose
`str(...)` the code stores. -/
structure GateResponse where
  status429 : Bool
  denialDetail : Option String
  denialRetryAfter : Option ℤ
  rlHeaders : Option (ℤ × ℤ × ℤ)
  deriving Repr, DecidableEq

/-- `RateLimitMiddleware.dispatch` for one client bucket, at wall-clock
time `now`.  Mirrors middleware.py lines 24-52:

    tokens, last_refill = self.buckets[client_ip]
    time_passed = now - last_refill
    tokens = min(self.requests_per_minute, tokens + time_passed)
    if tokens < 1: return 429-JSONResponse            # bucket not written
    tokens -= 1
    self.buckets[client_ip] = (tokens, now)
    ... set X-RateLimit-{Limit,Remaining,Reset} headers

Returns the stored bucket (unchanged on denial) and the response facts. -/
def dispatch (requests_per_minute : ℤ) (b : Bucket) (now : ℚ) :
    Bucket × GateResponse :=
  let time_passed : ℚ := now - b.lastRefill
  let tokens : ℚ := pyMin (requests_per_minute : ℚ) (b.tokens + time_passed)
  if tokens < 1 then
    (b, ⟨true, some "Rate limit exceeded", some 60, none⟩)
  else
    let tokens' := tokens - 1
    (⟨tokens', now⟩,
     ⟨false, none, none,
      some (requests_per_minute, pyInt tokens', pyInt (now + 60))⟩)

/-- A sequence of admission checks at the given wall-clock times, folded
over the stored bucket state. -/
def runChecks (requests_per_minute : ℤ) (b : Bucket) (times : List ℚ) :
    Bucket :=
  times.foldl (fun st t => (dispatch requests_per_minute st t).1) b

/-- The refill formula the spec asserts (claim C1), written from the
spec's words: `tokens = min(capacity, tokens + elapsedSeconds × (capacity/60))`. -/
def specRefill (capacity : ℤ) (tokens elapsed : ℚ) : ℚ :=
  pyMin (capacity : ℚ) (tokens + elapsed * ((capacity : ℚ) / 60))

/-- Helper: one `dispatch` call keeps the stored token count in `[0, C]`. -/
lemma dispatch_tokens_bounds (C : ℤ) (b : Bucket) (now : ℚ)
    (h : 0 ≤ b.tokens ∧ b.tokens ≤ (C : ℚ)) :
    0 ≤ (dispatch C b now).1.tokens ∧ (dispatch C b now).1.tokens ≤ (C : ℚ) := by
  obtain ⟨hl, hu⟩ := h
  simp only [dispatch, pyMin]
  split_ifs with h1 h2 h2
  · exact ⟨hl, hu⟩
  · dsimp only
    push_neg at h2
    constructor <;> linarith
  · exact ⟨hl, hu⟩
  · dsimp only
    push_neg at h1 h2
    constructor <;> linarith

/-- Helper: the fold of `dispatch` over any list of times preserves the
token bounds. -/
lemma runChecks_bounds_aux (C : ℤ) (times : List ℚ) (b : Bucket)
    (hb : 0 ≤ b.tokens ∧ b.tokens ≤ (C : ℚ)) :
    0 ≤ (times.foldl (fun st t => (dispatch C st t).1) b).tokens ∧
    (times.foldl (fun st t => (dispatch C st t).1) b).tokens ≤ (C : ℚ) := by
  induction times generalizing b with
  | nil => exact hb
  | cons t ts ih =>
    simp only [List.foldl_cons]
    exact ih _ (dispatch_tokens_bounds C b t hb)

/-- C1 — counterexample.  At capacity 120, an empty bucket refilled over 30
elapsed seconds: the code stores `min(120, 0+30) − 1 = 29` tokens after
admission, while the claimed formula `min(C, tokens + elapsed·C/60)` would
give `min(120, 0+30·2) − 1 = 59`.  The refill rate is 1 token/second, not
`C/60` per second. -/
theorem rate_refill_claim_false :
    (dispatch 120 ⟨0, 0⟩ 30).1.tokens = 29 ∧
    specRefill 120 0 30 - 1 = 59 ∧ (29 : ℚ) ≠ 59 := by
  refine ⟨?_, ?_, by norm_num⟩
  · simp [dispatch, pyMin]
    norm_num
  · simp [specRefill, pyMin]
    norm_num

/-- C1 — amended: on every admission the stored bucket holds
`min(C, tokens + elapsedSeconds × 1) − 1` tokens stamped `now` (refill is
1 token per second regardless of capacity, so the bucket replenishes
fully over `C − tokens` elapsed seconds, not over a fixed 60); the spec's
`C/60` formula agrees with the code exactly in the default case `C = 60`. -/
theorem rate_refill_one_per_second (C : ℤ) (b : Bucket) (now : ℚ)
    (hadm : 1 ≤ pyMin (C : ℚ) (b.tokens + (now - b.lastRefill))) :
    (dispatch C b now).1 =
      ⟨pyMin (C : ℚ) (b.tokens + (now - b.lastRefill) * 1) - 1, now⟩ ∧
    ((C : ℚ) - b.tokens ≤ now - b.lastRefill →
      (dispatch C b now).1.tokens = (C : ℚ) - 1) ∧
    (∀ t e : ℚ, pyMin (60 : ℚ) (t + e) = specRefill 60 t e) := by
  refine ⟨?_, ?_, ?_⟩
  · simp only [dispatch]
    rw [if_neg (by linarith)]
    simp
  · intro hfull
    simp only [dispatch]
    rw [if_neg (by linarith)]
    simp only [pyMin, if_pos (by linarith : (C : ℚ) ≤ b.tokens + (now - b.lastRefill))]
  · intro t e
    simp [pyMin, specRefill]

/-- C1 — witness for `rate_refill_one_per_second` at capacity 120, empty
bucket, 200 elapsed seconds. -/
theorem rate_refill_one_per_second_witness :
    (1 : ℚ) ≤ pyMin ((120 : ℤ) : ℚ) ((Bucket.mk 0 0).tokens + (200 - (Bucket.mk 0 0).lastRefill)) ∧
    (dispatch 120 ⟨0, 0⟩ 200).1 = ⟨119, 200⟩ := by
  have h : (1 : ℚ) ≤ pyMin ((120 : ℤ) : ℚ) ((Bucket.mk 0 0).tokens + (200 - (Bucket.mk 0 0).lastRefill)) := by
    simp [pyMin]; norm_num
  refine ⟨h, ?_⟩
  have := (rate_refill_one_per_second 120 ⟨0, 0⟩ 200 h).1
  rw [this]
  simp [pyMin]
  norm_num

/-- C2 — every call to the gate produces either the exact denial response
(HTTP 429, body detail "Rate limit exceeded" with retry_after 60, stored
bucket untouched) or an admitted response carrying all three
`X-RateLimit-*` headers with `X-RateLimit-Limit` equal to the configured
capacity. -/
theorem rate_gate_responses (C : ℤ) (b : Bucket) (now : ℚ) :
    (dispatch C b now = (b, ⟨true, some "Rate limit exceeded", some 60, none⟩)) ∨
    (∃ remaining reset : ℤ,
      (dispatch C b now).2 = ⟨false, none, none, some (C, remaining, reset)⟩) := by
  simp only [dispatch]
  split_ifs with h
  · left; rfl
  · right
    exact ⟨_, _, rfl⟩

/-- C8 — bucket bound: starting from the freshly initialised bucket (full
at capacity `C ≥ 0`), any sequence of admission checks at arbitrary times
keeps the stored token count within `[0, C]`. -/
theorem rate_bucket_bounds (C : ℤ) (hC : 0 ≤ C) (t0 : ℚ) (times : List ℚ) :
    0 ≤ (runChecks C (initialBucket C t0) times).tokens ∧
    (runChecks C (initialBucket C t0) times).tokens ≤ (C : ℚ) := by
  have init : 0 ≤ (initialBucket C t0).tokens ∧
      (initialBucket C t0).tokens ≤ (C : ℚ) := by
    constructor
    · simp only [initialBucket]
      exact_mod_cast hC
    · simp [initialBucket]
  exact runChecks_bounds_aux C times _ init

/-- C8 — witness for `rate_bucket_bounds` at capacity 60 and two checks. -/
theorem rate_bucket_bounds_witness :
    (0 : ℤ) ≤ 60 ∧
    (0 ≤ (runChecks 60 (initialBucket 60 0) [1, 2]).tokens ∧
      (runChecks 60 (initialBucket 60 0) [1, 2]).tokens ≤ ((60 : ℤ) : ℚ)) :=
  ⟨by norm_num, rate_bucket_bounds 60 (by norm_num) 0 [1, 2]⟩

/-! ## Log store — `src/core/src/observability/ring_buffer.py` -/

/-- A Python value as it appears in `Dict[str, Any]` payloads handled by
the observability code (strings, nested dicts, lists, and the scalar
types that occur in log records). -/
inductive PyValue where
  | pstr (s : String)
  | pdict (entries : List (String × PyValue))
  | plist (items : List PyValue)
  | pint (n : ℤ)
  | pfloat (q : ℚ)
  | pbool (b : Bool)
  | pnone

/-- `LogEntry` dataclass (ring_buffer.py lines 22-37).  `__post_init__`
turns `extra = None` into `{}`; we model `extra` already normalised as an
association list. -/
structure LogEntry where
  timestamp : ℚ
  level : String
  message : String
  module : String
  function : String
  line : ℕ
  correlation_id : Option String
  user_id : Option String
  extra : List (String × PyValue)

/-- `BufferPolicy` enum. -/
inductive BufferPolicy where
  | drop_oldest
  | block
  | drop_newest
  deriving DecidableEq

/-- The mutable state of a `RingBuffer`: the deque contents (oldest
first) and the three counters.  `_last_warning`, `_start_time` and the
log-only warning path do not affect any claim and are not tracked. -/
structure RBState where
  buffer : List LogEntry
  dropped_count : ℕ
  add_count : ℕ
  drop_count : ℕ

/-- `collections.deque(maxlen=m).append(e)`: append, evicting from the
left whatever exceeds `m`. -/
def dequeAppend (maxlen : ℕ) (buf : List LogEntry) (e : LogEntry) : List LogEntry :=
  let b := buf ++ [e]
  b.drop (b.length - maxlen)

/-- Python `lst[-k:]` for `k ≥ 0`: `-0` is `0`, so `k = 0` yields the
whole list; otherwise the last `k` elements. -/
def pySliceLast (l : List LogEntry) (k : ℕ) : List LogEntry :=
  if k = 0 then l else l.drop (l.length - k)

/-- `_wait_for_space` keyword default `timeout=1.0` (seconds). -/
def wait_for_space_timeout : ℚ := 1

/-- `await asyncio.sleep(0.01)` poll interval inside `_wait_for_space`. -/
def wait_poll_interval : ℚ := 1 / 100

namespace RingBuffer

/-- `RingBuffer.add` (ring_buffer.py lines 53-87), acting on one state.
`len(self._buffer) >= self.max_size` gates the policy branch:
  * DROP_OLDEST: count the drop (`_dropped_count`, `_drop_count`), then
    fall through to the shared `append` — the deque evicts the oldest;
  * BLOCK: delegate to `_wait_for_space`.  `add` holds `self._lock` for
    the whole call and every other mutator of `_buffer` also acquires
    that lock, so no space can appear while the poll loop runs: the
    wait always ends by the `timeout` branch, which counts the drop and
    returns `False` without touching the buffer;
  * DROP_NEWEST: count the drop and return `False`.
The shared tail appends and bumps `_add_count` (the high-usage check
only emits a log line).  Returns the new state and `add`'s boolean. -/
def add (max_size : ℕ) (policy : BufferPolicy) (st : RBState) (entry : LogEntry) :
    RBState × Bool :=
  if max_size ≤ st.buffer.length then
    match policy with
    | .drop_oldest =>
        (⟨dequeAppend max_size st.buffer entry,
          st.dropped_count + 1, st.add_count + 1, st.drop_count + 1⟩, true)
    | .block =>
        (⟨st.buffer, st.dropped_count, st.add_count, st.drop_count + 1⟩, false)
    | .drop_newest =>
        (⟨st.buffer, st.dropped_count, st.add_count, st.drop_count + 1⟩, false)
  else
    (⟨dequeAppend max_size st.buffer entry,
      st.dropped_count, st.add_count + 1, st.drop_count⟩, true)

/-- A sequence of `add` calls, keeping the state. -/
def addAll (max_size : ℕ) (policy : BufferPolicy) (st : RBState)
    (entries : List LogEntry) : RBState :=
  entries.foldl (fun s e => (add max_size policy s e).1) st

/-- A sequence of `add` calls, collecting each call's returned boolean. -/
def addAllResults (max_size : ℕ) (policy : BufferPolicy) (st : RBState)
    (entries : List LogEntry) : RBState × List Bool :=
  entries.foldl
    (fun p e =>
      let r := add max_size policy p.1 e
      (r.1, p.2 ++ [r.2]))
    (st, [])

/-- `RingBuffer.get_recent` (lines 116-121):
`return list(buffer) if limit >= len(buffer) else list(buffer)[-limit:]`. -/
def get_recent (st : RBState) (limit : ℕ) : List LogEntry :=
  if st.buffer.length ≤ limit then st.buffer
  else pySliceLast st.buffer limit

/-- `RingBuffer.get_all` (lines 123-126). -/
def get_all (st : RBState) : List LogEntry := st.buffer

end RingBuffer

/-- A fresh `RingBuffer()`: empty deque, zero counters. -/
def freshRB : RBState := ⟨[], 0, 0, 0⟩

/-- Distinct sample log entries for the concrete scenarios. -/
def entryA : LogEntry := ⟨1, "INFO", "A", "modA", "f", 1, none, none, []⟩

def entryB : LogEntry := ⟨2, "INFO", "B", "modB", "f", 2, none, none, []⟩

def entryC : LogEntry := ⟨3, "WARN", "C", "modC", "f", 3, none, none, []⟩

def entryD : LogEntry := ⟨4, "WARN", "D", "modD", "f", 4, none, none, []⟩

/-- An entry with a negative timestamp (any float is admissible in the
`timestamp` field). -/
def entryNeg : LogEntry := ⟨-1, "ERROR", "N", "modN", "f", 9, none, none, []⟩

/-- The five optional `search` filters. -/
structure SearchFilters where
  level : Option String
  module : Option String
  correlation_id : Option String
  start_time : Option ℚ
  end_time : Option ℚ

/-- Python truthiness guard for an optional-string filter, as in
`if level and entry.level != level: continue`: the test `p` is applied
only when the argument is present AND non-empty (an empty string is
falsy, so a supplied `""` filter is skipped). -/
def pyGuardStr (o : Option String) (p : String → Bool) : Bool :=
  match o with
  | none => true
  | some s => if s = "" then true else p s

/-- Python truthiness guard for an optional-float filter, as in
`if start_time and entry.timestamp < start_time: continue`: `0.0` is
falsy, so a supplied zero bound is skipped. -/
def pyGuardFloat (o : Option ℚ) (p : ℚ → Bool) : Bool :=
  match o with
  | none => true
  | some q => if q = 0 then true else p q

/-- The body of the `search` scan loop: an entry survives all five
`continue` tests (ring_buffer.py lines 170-179). -/
def entryKeeps (f : SearchFilters) (e : LogEntry) : Bool :=
  pyGuardStr f.level (fun l => e.level = l) &&
  pyGuardStr f.module (fun m => e.module = m) &&
  pyGuardStr f.correlation_id (fun c => e.correlation_id = some c) &&
  pyGuardFloat f.start_time (fun s => !(e.timestamp < s)) &&
  pyGuardFloat f.end_time (fun t => !(t < e.timestamp))

namespace RingBuffer

/-- The `for entry in reversed(self._buffer)` loop of `search`:
`if len(results) >= limit: break`, apply the filters, append matches. -/
def searchLoop (f : SearchFilters) (limit : ℕ) :
    List LogEntry → List LogEntry → List LogEntry
  | [], results => results
  | e :: rest, results =>
    if limit ≤ results.length then results
    else if entryKeeps f e then searchLoop f limit rest (results ++ [e])
    else searchLoop f limit rest results

/-- `RingBuffer.search` (lines 154-185): scan the buffer newest-first,
collecting at most `limit` entries that pass every (truthy) filter. -/
def search (st : RBState) (f : SearchFilters) (limit : ℕ) : List LogEntry :=
  searchLoop f limit st.buffer.reverse []

end RingBuffer

/-- C3 — counterexample.  On a 2-entry store, `recent(0)` returns both
entries (Python `list[-0:]` is the whole list), not the
`min(0, 2) = 0` entries the claim requires. -/
theorem recent_claim_false :
    RingBuffer.get_recent ⟨[entryA, entryB], 0, 2, 0⟩ 0 = [entryA, entryB] ∧
    (RingBuffer.get_recent ⟨[entryA, entryB], 0, 2, 0⟩ 0).length ≠
      min 0 ([entryA, entryB] : List LogEntry).length := by
  exact ⟨rfl, by decide⟩

/-- C3 — amended: for `limit ≥ 1`, `recent(limit)` is the suffix of the
store holding its most recent `min(limit, size)` entries, oldest-first;
`recent(0)` returns the entire store (the `[-0:]` slice), not the empty
sequence. -/
theorem recent_returns_recent_suffix (st : RBState) (limit : ℕ) (h : 1 ≤ limit) :
    RingBuffer.get_recent st limit = st.buffer.drop (st.buffer.length - limit) ∧
    (RingBuffer.get_recent st limit).length = min limit st.buffer.length ∧
    RingBuffer.get_recent st 0 = st.buffer := by
  have h0 : RingBuffer.get_recent st 0 = st.buffer := by
    unfold RingBuffer.get_recent pySliceLast
    split_ifs with hA hB
    · rfl
    · rfl
    · exact absurd rfl hB
  by_cases hle : st.buffer.length ≤ limit
  · refine ⟨?_, ?_, h0⟩
    · unfold RingBuffer.get_recent
      rw [if_pos hle, Nat.sub_eq_zero_of_le hle, List.drop_zero]
    · unfold RingBuffer.get_recent
      rw [if_pos hle, Nat.min_eq_right hle]
  · have hlt : limit < st.buffer.length := by omega
    have hne : limit ≠ 0 := by omega
    refine ⟨?_, ?_, h0⟩
    · unfold RingBuffer.get_recent pySliceLast
      rw [if_neg hle, if_neg hne]
    · unfold RingBuffer.get_recent pySliceLast
      rw [if_neg hle, if_neg hne]
      simp only [List.length_drop]
      omega

/-- C3 — witness for `recent_returns_recent_suffix` on a two-entry store
with `limit = 1`. -/
theorem recent_returns_recent_suffix_witness :
    1 ≤ 1 ∧
    (RingBuffer.get_recent ⟨[entryA, entryB], 0, 2, 0⟩ 1 =
        (RBState.mk [entryA, entryB] 0 2 0).buffer.drop
          ((RBState.mk [entryA, entryB] 0 2 0).buffer.length - 1) ∧
      (RingBuffer.get_recent ⟨[entryA, entryB], 0, 2, 0⟩ 1).length =
        min 1 (RBState.mk [entryA, entryB] 0 2 0).buffer.length ∧
      RingBuffer.get_recent ⟨[entryA, entryB], 0, 2, 0⟩ 0 =
        (RBState.mk [entryA, entryB] 0 2 0).buffer) :=
  ⟨le_refl 1, recent_returns_recent_suffix ⟨[entryA, entryB], 0, 2, 0⟩ 1 (le_refl 1)⟩

/-- Helper: the `search` loop collects, in scan order, the first matches
of the remaining scan list until `limit` results are held. -/
lemma searchLoop_eq (f : SearchFilters) (limit : ℕ) (l : List LogEntry) :
    ∀ acc : List LogEntry,
      RingBuffer.searchLoop f limit l acc =
        if limit ≤ acc.length then acc
        else acc ++ (l.filter (entryKeeps f)).take (limit - acc.length) := by
  induction l with
  | nil =>
    intro acc
    simp only [RingBuffer.searchLoop, List.filter_nil, List.take_nil,
      List.append_nil]
    split_ifs <;> rfl
  | cons e rest ih =>
    intro acc
    simp only [RingBuffer.searchLoop]
    split_ifs with h1 h2
    · rfl
    · rw [ih (acc ++ [e])]
      have hlen : (acc ++ [e]).length = acc.length + 1 := by simp
      rw [hlen]
      by_cases h3 : limit ≤ acc.length + 1
      · have hlim : limit - acc.length = 1 := by omega
        rw [if_pos h3]
        simp [List.filter_cons, h2, hlim]
      · rw [if_neg h3]
        have h4 : limit - acc.length = (limit - (acc.length + 1)) + 1 := by
          omega
        simp only [List.filter_cons, h2, if_true, h4, List.take_succ_cons]
        simp
    · rw [ih acc, if_neg h1]
      simp [List.filter_cons, h2]

/-- C4 — counterexample.  A supplied empty-string `level` filter is falsy
in Python (`if level and ...`), so it is silently skipped: an entry whose
level differs from the supplied `""` is still returned.  Likewise a
supplied `start_time = 0.0` bound is skipped, returning an entry whose
timestamp is below the bound. -/
theorem search_claim_false :
    (RingBuffer.search ⟨[entryA], 0, 1, 0⟩ ⟨some "", none, none, none, none⟩ 10 =
        [entryA] ∧ entryA.level ≠ "") ∧
    (RingBuffer.search ⟨[entryNeg], 0, 1, 0⟩ ⟨none, none, none, some 0, none⟩ 10 =
        [entryNeg] ∧ entryNeg.timestamp < 0) := by
  refine ⟨⟨rfl, by simp [entryA]⟩, ⟨?_, by norm_num [entryNeg]⟩⟩
  simp [RingBuffer.search, RingBuffer.searchLoop, entryKeeps, pyGuardStr,
    pyGuardFloat]

/-- C4 — amended: `search` equals scanning the store newest-to-oldest,
keeping entries that pass every *truthy* supplied filter (a supplied
empty string or zero time bound is falsy and skipped; the others apply as
the equality / inclusive-range tests), truncated to the first `limit`
matches, newest-first. -/
theorem search_is_filtered_take (st : RBState) (f : SearchFilters) (limit : ℕ) :
    RingBuffer.search st f limit =
      (st.buffer.reverse.filter (entryKeeps f)).take limit := by
  unfold RingBuffer.search
  rw [searchLoop_eq]
  by_cases h : limit = 0
  · subst h
    simp
  · rw [if_neg (by simp; omega)]
    simp

/-- Helper: one `add` keeps the store size within `max_size`. -/
lemma add_length_le (max_size : ℕ) (policy : BufferPolicy) (st : RBState)
    (e : LogEntry) (h : st.buffer.length ≤ max_size) :
    (RingBuffer.add max_size policy st e).1.buffer.length ≤ max_size := by
  unfold RingBuffer.add dequeAppend
  cases policy <;> split_ifs <;> simp <;> omega

/-- C5 — bounded size: from any state within capacity, every sequence of
`add` calls leaves at most `max_size` entries stored, under each of the
three overflow policies. -/
theorem store_size_bounded (max_size : ℕ) (policy : BufferPolicy)
    (st : RBState) (entries : List LogEntry)
    (h : st.buffer.length ≤ max_size) :
    (RingBuffer.addAll max_size policy st entries).buffer.length ≤ max_size := by
  unfold RingBuffer.addAll
  induction entries generalizing st with
  | nil => exact h
  | cons e rest ih =>
    simp only [List.foldl_cons]
    exact ih _ (add_length_le max_size policy st e h)

/-- C5 — witness for `store_size_bounded`: capacity 1, two adds. -/
theorem store_size_bounded_witness :
    freshRB.buffer.length ≤ 1 ∧
    (RingBuffer.addAll 1 .drop_oldest freshRB [entryA, entryB]).buffer.length ≤ 1 :=
  ⟨by decide,
   store_size_bounded 1 .drop_oldest freshRB [entryA, entryB] (by decide)⟩

/-- C6 — DropOldest recency: adding `A, B, C, D` to a fresh capacity-3
DropOldest store accepts all four adds, leaves `[B, C, D]` stored with
`_dropped_count = 1` (and `_add_count = 4`, `_drop_count = 1`), and
`recent(3)` returns exactly `[B, C, D]`. -/
theorem drop_oldest_recency :
    RingBuffer.addAllResults 3 .drop_oldest freshRB [entryA, entryB, entryC, entryD] =
      (⟨[entryB, entryC, entryD], 1, 4, 1⟩, [true, true, true, true]) ∧
    RingBuffer.get_recent
      (RingBuffer.addAllResults 3 .drop_oldest freshRB
        [entryA, entryB, entryC, entryD]).1 3 = [entryB, entryC, entryD] :=
  ⟨rfl, rfl⟩

/-- C9 — Block-policy overflow: `add` on a full store ends in the
`_wait_for_space` timeout branch (the 1 s budget, polled every 10 ms,
elapses with no space — every other buffer mutator needs the lock `add`
holds), so the entry is dropped, `_drop_count` is incremented, `add`
returns `False`, the stored sequence is unchanged, and the call returns
normally (no exception). -/
theorem block_timeout_drops (max_size : ℕ) (st : RBState) (e : LogEntry)
    (h : max_size ≤ st.buffer.length) :
    RingBuffer.add max_size .block st e =
      (⟨st.buffer, st.dropped_count, st.add_count, st.drop_count + 1⟩, false) ∧
    (RingBuffer.add max_size .block st e).1.buffer = st.buffer ∧
    wait_for_space_timeout = 1 ∧ wait_poll_interval = 1 / 100 := by
  have h1 : RingBuffer.add max_size .block st e =
      (⟨st.buffer, st.dropped_count, st.add_count, st.drop_count + 1⟩, false) := by
    unfold RingBuffer.add
    rw [if_pos h]
  exact ⟨h1, by rw [h1], rfl, rfl⟩

/-! ## PII masking — `src/core/src/observability/pii_masker.py`

Every compiled pattern in `PIIMasker.__init__` is a plain concatenation
of literal characters, greedy character-class repetitions
(`X+`, `X*`, `X?`, `X{n}`, `X{n,m}`, `X{n,}`) and `\b` word-boundary
assertions — no alternation or capture affects matching.  We embed that
fragment directly: a pattern is a list of items, and matching follows
CPython `re` semantics (leftmost match; each repetition greedy, giving
back one step at a time on backtracking).  The inputs handled by the
claims are ASCII, where `\w`/`\b`/`\s` have their ASCII meaning. -/

/-- `[A-Z]` -/
def isUpperAZ (c : Char) : Bool := decide ('A' ≤ c ∧ c ≤ 'Z')

/-- `[a-z]` -/
def isLowerAZ (c : Char) : Bool := decide ('a' ≤ c ∧ c ≤ 'z')

/-- `[0-9]` / `\d` -/
def isDigit09 (c : Char) : Bool := decide ('0' ≤ c ∧ c ≤ '9')

/-- `[A-Za-z0-9]` -/
def isAlnum (c : Char) : Bool := isUpperAZ c || isLowerAZ c || isDigit09 c

/-- `\w` (ASCII): letters, digits, underscore — the class `\b` tests. -/
def isWordChar (c : Char) : Bool := isAlnum c || c == '_'

/-- `\s` (ASCII): space, tab, newline, carriage return, vertical tab,
form feed. -/
def isPySpace (c : Char) : Bool :=
  c == ' ' || c == '\t' || c == '\n' || c == '\r' || c == '\x0b' || c == '\x0c'

/-- `[A-Za-z0-9._%+-]` (email username). -/
def emailUserChar (c : Char) : Bool :=
  isAlnum c || c == '.' || c == '_' || c == '%' || c == '+' || c == '-'

/-- `[A-Za-z0-9.-]` (email domain). -/
def emailDomainChar (c : Char) : Bool := isAlnum c || c == '.' || c == '-'

/-- `[A-Z|a-z]` (email TLD — the `|` inside the class is a literal). -/
def emailTldChar (c : Char) : Bool := isUpperAZ c || c == '|' || isLowerAZ c

/-- `[A-Za-z0-9-_]` (JWT base64url). -/
def jwtChar (c : Char) : Bool := isAlnum c || c == '-' || c == '_'

/-- `[A-Z0-9]` (IBAN body). -/
def upperDigitChar (c : Char) : Bool := isUpperAZ c || isDigit09 c

/-- `[\s-]` (credit-card separators). -/
def spaceDashChar (c : Char) : Bool := isPySpace c || c == '-'

/-- One item of a compiled pattern: a greedy character-class repetition
`X{lo,hi}` (`hi = none` is unbounded; a literal is the singleton class
repeated exactly once), or a `\b` assertion. -/
inductive PatItem where
  | cls (p : Char → Bool) (lo : ℕ) (hi : Option ℕ)
  | wb

/-- A literal character. -/
def lit (c : Char) : PatItem := .cls (fun x => x == c) 1 (some 1)

/-- `X{lo,hi}`. -/
def repP (p : Char → Bool) (lo hi : ℕ) : PatItem := .cls p lo (some hi)

/-- `X+`. -/
def plusP (p : Char → Bool) : PatItem := .cls p 1 none

/-- `X*`. -/
def starP (p : Char → Bool) : PatItem := .cls p 0 none

/-- `X{n,}`. -/
def atLeastP (p : Char → Bool) (n : ℕ) : PatItem := .cls p n none

/-- Is the character at index `i` (of the original subject) a word
character?  Out of range counts as non-word. -/
def wordAt (s : List Char) (i : ℕ) : Bool :=
  match s.get? i with
  | some c => isWordChar c
  | none => false

/-- `\b` at absolute position `pos`: word-ness changes between the
previous character and the current one. -/
def wordBoundary (s : List Char) (pos : ℕ) : Bool :=
  (if pos = 0 then false else wordAt s (pos - 1)) != wordAt s pos

/-- First `some` produced by `f` along the list, if any. -/
def firstSome? {α β : Type} (f : α → Option β) : List α → Option β
  | [] => none
  | a :: as =>
    match f a with
    | some b => some b
    | none => firstSome? f as

/-- Backtracking matcher for a pattern suffix `items` at absolute
position `pos` of subject `s`: the number of characters a match consumes,
or `none`.  A class repetition tries the greedy count first
(`min(run, hi)` where `run` is the length of the maximal block of class
characters at `pos`), then backs off one at a time down to `lo` — CPython
`re` order.  `fuel` only bounds the recursion depth for structural
recursion; one unit is spent per pattern item, so any
`fuel > items.length` is exact. -/
def matchF : ℕ → List Char → List PatItem → ℕ → Option ℕ
  | 0, _, _, _ => none
  | _ + 1, _, [], _ => some 0
  | fuel + 1, s, .wb :: rest, pos =>
    if wordBoundary s pos then matchF fuel s rest pos else none
  | fuel + 1, s, .cls p lo hi :: rest, pos =>
    let run := ((s.drop pos).takeWhile p).length
    let k0 := min run (hi.getD run)
    if lo ≤ k0 then
      firstSome?
        (fun k => (matchF fuel s rest (pos + k)).map (fun n => k + n))
        ((List.range (k0 + 1 - lo)).map (fun i => k0 - i))
    else none

/-- Match the whole pattern at `pos`. -/
def matchItems (s : List Char) (items : List PatItem) (pos : ℕ) : Option ℕ :=
  matchF (items.length + 1) s items pos

/-- The scan of `re.sub`: try the pattern at `pos`; on a match, emit
`repl(matched text)` and resume right after it, otherwise copy one
character.  Matching always sees the original subject (replacements are
never rescanned), which is why `pos` is absolute.  None of the compiled
patterns can match the empty string (each requires at least one
character), so a zero-length match is treated as no match and scanning
at `pos = len(s)` cannot produce one either.  `fuel` bounds the
structural recursion; the scan advances at least one position per step,
so any `fuel > s.length` is exact. -/
def subF : ℕ → List PatItem → (List Char → List Char) → List Char → ℕ → List Char
  | 0, _, _, _, _ => []
  | fuel + 1, pat, repl, s, pos =>
    if s.length ≤ pos then []
    else
      match matchItems s pat pos with
      | some L =>
        if 0 < L then
          repl ((s.drop pos).take L) ++ subF fuel pat repl s (pos + L)
        else (s.drop pos).headI :: subF fuel pat repl s (pos + 1)
      | none => (s.drop pos).headI :: subF fuel pat repl s (pos + 1)

/-- `pattern.sub(repl, text)` over the embedded pattern fragment. -/
def pySub (pat : List PatItem) (repl : List Char → List Char) (t : List Char) :
    List Char :=
  subF (t.length + 1) pat repl t 0

/-- `self.email_pattern`:
`\b[A-Za-z0-9._%+-]+@[A-Za-z0-9.-]+\.[A-Z|a-z]{2,}\b` -/
def email_pattern : List PatItem :=
  [.wb, plusP emailUserChar, lit '@', plusP emailDomainChar, lit '.',
   atLeastP emailTldChar 2, .wb]

/-- `self.phone_patterns`: `\+46\s*\d{1,2}\s*\d{3}\s*\d{2}\s*\d{2}`,
`0\d{1,2}\s*\d{3}\s*\d{2}\s*\d{2}`, `\+1\s*\d{3}\s*\d{3}\s*\d{4}`. -/
def phone_patterns : List (List PatItem) :=
  [[lit '+', lit '4', lit '6', starP isPySpace, repP isDigit09 1 2,
    starP isPySpace, repP isDigit09 3 3, starP isPySpace, repP isDigit09 2 2,
    starP isPySpace, repP isDigit09 2 2],
   [lit '0', repP isDigit09 1 2, starP isPySpace, repP isDigit09 3 3,
    starP isPySpace, repP isDigit09 2 2, starP isPySpace, repP isDigit09 2 2],
   [lit '+', lit '1', starP isPySpace, repP isDigit09 3 3, starP isPySpace,
    repP isDigit09 3 3, starP isPySpace, repP isDigit09 4 4]]

/-- `self.jwt_pattern`: `eyJ[A-Za-z0-9-_]+\.[A-Za-z0-9-_]+\.[A-Za-z0-9-_]+` -/
def jwt_pattern : List PatItem :=
  [lit 'e', lit 'y', lit 'J', plusP jwtChar, lit '.', plusP jwtChar, lit '.',
   plusP jwtChar]

/-- `self.oauth_pattern`: `[A-Za-z0-9]{32,}` -/
def oauth_pattern : List PatItem := [atLeastP isAlnum 32]

/-- `self.iban_pattern`:
`\b[A-Z]{2}[0-9]{2}[A-Z0-9]{4}[0-9]{7}([A-Z0-9]?){0,16}\b`.
Each greedy iteration of `([A-Z0-9]?){0,16}` consumes one class character
while any remain and the engine stops repeating once an iteration matches
empty, so the group consumes 0–16 class characters, giving back greedily —
the same match behaviour as `[A-Z0-9]{0,16}`. -/
def iban_pattern : List PatItem :=
  [.wb, repP isUpperAZ 2 2, repP isDigit09 2 2, repP upperDigitChar 4 4,
   repP isDigit09 7 7, repP upperDigitChar 0 16, .wb]

/-- `self.credit_card_pattern`: `\b\d{4}[\s-]?\d{4}[\s-]?\d{4}[\s-]?\d{4}\b` -/
def credit_card_pattern : List PatItem :=
  [.wb, repP isDigit09 4 4, repP spaceDashChar 0 1, repP isDigit09 4 4,
   repP spaceDashChar 0 1, repP isDigit09 4 4, repP spaceDashChar 0 1,
   repP isDigit09 4 4, .wb]

/-- `self.api_key_patterns`: `sk-[A-Za-z0-9]{48}` and `[A-Za-z0-9]{32,}`. -/
def api_key_patterns : List (List PatItem) :=
  [[lit 's', lit 'k', lit '-', repP isAlnum 48 48],
   [atLeastP isAlnum 32]]

/-- `'*' * n` (Python's `'*' * k` is `""` for `k ≤ 0`, matching ℕ
subtraction in the callers). -/
def stars (n : ℕ) : List Char := List.replicate n '*'

/-- `s[:2] + '*' * (len(s) - 2)` — used for both email halves. -/
def maskKeep2 (s : List Char) : List Char := s.take 2 ++ stars (s.length - 2)

/-- The `mask_email` replacement: `username, domain = email.split('@')`
(every match of the email pattern contains exactly one `'@'`), then mask
each half keeping its first two characters. -/
def maskEmailRepl (m : List Char) : List Char :=
  let username := m.takeWhile (fun c => !(c == '@'))
  let domain := (m.dropWhile (fun c => !(c == '@'))).drop 1
  maskKeep2 username ++ '@' :: maskKeep2 domain

/-- The `mask_phone` replacement: keep first 3 and last 2 characters when
the match has length ≥ 8, else mask fully. -/
def maskPhoneRepl (m : List Char) : List Char :=
  if 8 ≤ m.length then
    m.take 3 ++ stars (m.length - 5) ++ m.drop (m.length - 2)
  else stars m.length

/-- Python `str.split(sep)` for a single-character separator. -/
def splitOnChar (sep : Char) : List Char → List (List Char)
  | [] => [[]]
  | c :: cs =>
    let r := splitOnChar sep cs
    if c = sep then [] :: r
    else
      match r with
      | [] => [[c]]
      | h :: t => (c :: h) :: t

/-- The `mask_jwt` replacement: split on `'.'`; a 3-part token keeps the
first 8 characters of header and payload (each suffixed `'...'`) and
replaces the signature by 20 stars. -/
def maskJwtRepl (m : List Char) : List Char :=
  match splitOnChar '.' m with
  | [h, p, _] =>
    (h.take 8 ++ List.replicate 3 '.') ++
      '.' :: ((p.take 8 ++ List.replicate 3 '.') ++ '.' :: stars 20)
  | _ => stars m.length

/-- The replacement shared (textually identical in the source) by
`mask_oauth`, `mask_iban`, `mask_credit_card` and `mask_api_keys`: keep
first 4 and last 4 characters when the match has length ≥ 8, else mask
fully. -/
def maskKeep4 (m : List Char) : List Char :=
  if 8 ≤ m.length then
    m.take 4 ++ stars (m.length - 8) ++ m.drop (m.length - 4)
  else stars m.length

/-- `PIIMasker.mask_email`. -/
def mask_email (text : String) : String :=
  String.mk (pySub email_pattern maskEmailRepl text.data)

/-- `PIIMasker.mask_phone`: the three phone patterns applied in turn. -/
def mask_phone (text : String) : String :=
  phone_patterns.foldl (fun t pat => String.mk (pySub pat maskPhoneRepl t.data))
    text

/-- `PIIMasker.mask_jwt`. -/
def mask_jwt (text : String) : String :=
  String.mk (pySub jwt_pattern maskJwtRepl text.data)

/-- `PIIMasker.mask_oauth`. -/
def mask_oauth (text : String) : String :=
  String.mk (pySub oauth_pattern maskKeep4 text.data)

/-- `PIIMasker.mask_iban`. -/
def mask_iban (text : String) : String :=
  String.mk (pySub iban_pattern maskKeep4 text.data)

/-- `PIIMasker.mask_credit_card`. -/
def mask_credit_card (text : String) : String :=
  String.mk (pySub credit_card_pattern maskKeep4 text.data)

/-- `PIIMasker.mask_api_keys`: the two API-key patterns applied in turn. -/
def mask_api_keys (text : String) : String :=
  api_key_patterns.foldl (fun t pat => String.mk (pySub pat maskKeep4 t.data))
    text

/-- `PIIMasker.mask_all`: the seven maskers in source order. -/
def mask_all (text : String) : String :=
  mask_api_keys (mask_credit_card (mask_iban (mask_oauth (mask_jwt
    (mask_phone (mask_email text))))))

/-!
`PIIMasker.mask_dict` (pii_masker.py lines 133-149), split by the shape
of the Python loop: `mask_dict` walks the items, keeping every key;
`mask_value` is the per-value `isinstance` chain (str → `mask_all`,
dict → recurse, list → per-element rule, anything else unchanged);
`mask_list` / `mask_list_elem` are the list comprehension, whose elements
are treated as dict → `mask_dict`, str → `mask_all`, anything else
(including a nested list) unchanged. -/
mutual

/-- The `for key, value in data.items()` loop of `mask_dict`. -/
def mask_dict : List (String × PyValue) → List (String × PyValue)
  | [] => []
  | (k, v) :: rest => (k, mask_value v) :: mask_dict rest

/-- The per-value `isinstance` chain of `mask_dict`. -/
def mask_value : PyValue → PyValue
  | .pstr s => .pstr (mask_all s)
  | .pdict d => .pdict (mask_dict d)
  | .plist items => .plist (mask_list items)
  | v => v

/-- The list comprehension of `mask_dict`'s list branch. -/
def mask_list : List PyValue → List PyValue
  | [] => []
  | it :: rest => mask_list_elem it :: mask_list rest

/-- One element of the list comprehension: `mask_dict(item) if
isinstance(item, dict) else mask_all(item) if isinstance(item, str)
else item`. -/
def mask_list_elem : PyValue → PyValue
  | .pdict d => .pdict (mask_dict d)
  | .pstr s => .pstr (mask_all s)
  | v => v

end

/-- C7 — redaction determinism and format preservation: the full pipeline
masks the example email to `jo******@ex*********` (6 and 9 masked
characters) and the example card number to `4111***********1111`
(11 masked characters), exactly. -/
theorem redaction_examples :
    mask_all "john.doe@example.com" = "jo******@ex*********" ∧
    mask_all "4111 1111 1111 1111" = "4111***********1111" :=
  ⟨rfl, rfl⟩

/-- Helper: `mask_dict` maps each item to its key paired with the masked
value. -/
lemma mask_dict_eq_map (d : List (String × PyValue)) :
    mask_dict d = d.map (fun kv => (kv.1, mask_value kv.2)) := by
  induction d with
  | nil => simp [mask_dict]
  | cons kv rest ih =>
    obtain ⟨k, v⟩ := kv
    simp [mask_dict, ih]

/-- Helper: the list branch maps `mask_list_elem` over the elements. -/
lemma mask_list_eq_map (l : List PyValue) :
    mask_list l = l.map mask_list_elem := by
  induction l with
  | nil => simp [mask_list]
  | cons it rest ih => simp [mask_list, ih]

/-- C10 — counterexample.  A string nested in a sequence inside another
sequence is NOT masked: the list comprehension passes a nested list
through unchanged, so the email inside survives even though `mask_all`
would redact it. -/
theorem mask_dict_claim_false :
    mask_dict [("k", .plist [.plist [.pstr "john.doe@example.com"]])] =
      [("k", .plist [.plist [.pstr "john.doe@example.com"]])] ∧
    mask_all "john.doe@example.com" ≠ "john.doe@example.com" := by
  constructor
  · simp [mask_dict, mask_value, mask_list, mask_list_elem]
  · have h2 : mask_all "john.doe@example.com" = "jo******@ex*********" := rfl
    rw [h2]
    decide

/-- C10 — amended: `mask_dict` returns a mapping with exactly the input's
key sequence, keys passed through unredacted; each value is transformed
by the `isinstance` chain — strings by `mask_all`, sub-mappings
recursively, list values element-wise where a dict element recurses, a
string element is masked, and any other element (including a list nested
directly inside a list, whose inner strings therefore stay unmasked) is
returned unchanged; non-string, non-mapping, non-sequence values are
returned unchanged. -/
theorem mask_dict_frame (d : List (String × PyValue)) :
    (mask_dict d).map Prod.fst = d.map Prod.fst ∧
    mask_dict d = d.map (fun kv => (kv.1, mask_value kv.2)) ∧
    (∀ s, mask_value (.pstr s) = .pstr (mask_all s)) ∧
    (∀ ent, mask_value (.pdict ent) = .pdict (mask_dict ent)) ∧
    (∀ items, mask_value (.plist items) = .plist (items.map mask_list_elem)) ∧
    (∀ ent, mask_list_elem (.pdict ent) = .pdict (mask_dict ent)) ∧
    (∀ s, mask_list_elem (.pstr s) = .pstr (mask_all s)) ∧
    (∀ items, mask_list_elem (.plist items) = .plist items) ∧
    (∀ n : ℤ, mask_value (.pint n) = .pint n ∧ mask_list_elem (.pint n) = .pint n) ∧
    (∀ q : ℚ, mask_value (.pfloat q) = .pfloat q ∧ mask_list_elem (.pfloat q) = .pfloat q) ∧
    (∀ b : Bool, mask_value (.pbool b) = .pbool b ∧ mask_list_elem (.pbool b) = .pbool b) ∧
    mask_value .pnone = .pnone ∧ mask_list_elem .pnone = .pnone := by
  refine ⟨?_, mask_dict_eq_map d, ?_, ?_, ?_, ?_, ?_, ?_, ?_, ?_, ?_, ?_, ?_⟩
  · rw [mask_dict_eq_map]
    simp
  all_goals simp [mask_value, mask_list_elem, mask_list_eq_map]

/-- C9 — witness for `block_timeout_drops`: capacity 1, one stored entry. -/
theorem block_timeout_drops_witness :
    1 ≤ (RBState.mk [entryA] 0 1 0).buffer.length ∧
    (RingBuffer.add 1 .block ⟨[entryA], 0, 1, 0⟩ entryB =
        (⟨(RBState.mk [entryA] 0 1 0).buffer, (RBState.mk [entryA] 0 1 0).dropped_count,
          (RBState.mk [entryA] 0 1 0).add_count, (RBState.mk [entryA] 0 1 0).drop_count + 1⟩,
          false) ∧
      (RingBuffer.add 1 .block ⟨[entryA], 0, 1, 0⟩ entryB).1.buffer =
        (RBState.mk [entryA] 0 1 0).buffer ∧
      wait_for_space_timeout = 1 ∧ wait_poll_interval = 1 / 100) :=
  ⟨by decide, block_timeout_drops 1 ⟨[entryA], 0, 1, 0⟩ entryB (by decide)⟩
